import Mathlib

/-!
Verification development for the two client modules of the repository
(`mcp_client.py` and `ollama_client.py`).  The Python code is shallowly
embedded: JSON values become the inductive type `Mcp.Json`; Python
operations that may raise an exception are modelled in the `Mcp.Py`
monad, whose `exn` value stands for a raised Python exception; the
standard-library call `json.loads` is modelled by a fuel-based JSON
parser `Mcp.json_loads` covering the JSON subset the clients exchange
(objects, arrays, strings, integers, booleans, null), and `json.dumps`
by `Mcp.json_dumps` with Python's default separators.
-/

namespace Mcp

mutual

/-- JSON values.  `obj` fields are kept in textual order; duplicate keys
(which CPython's parser collapses, last binding winning) are modelled with
first-binding lookup — the claims below never depend on duplicate-key
objects.  Arrays and objects are mutual inductives rather than nested
`List`s so that every function on them is structurally recursive and
reduces definitionally. -/
inductive Json where
  | null : Json
  | bool (b : Bool) : Json
  | num (n : Int) : Json
  | str (s : String) : Json
  | arr (xs : JsonArr) : Json
  | obj (ms : JsonObj) : Json

/-- A JSON array, as a bespoke list of `Json`. -/
inductive JsonArr where
  | nil : JsonArr
  | cons (hd : Json) (tl : JsonArr) : JsonArr

/-- A JSON object, as a bespoke association list. -/
inductive JsonObj where
  | nil : JsonObj
  | cons (k : String) (v : Json) (tl : JsonObj) : JsonObj

end

deriving instance DecidableEq for Json, JsonArr, JsonObj

/-- Computation in Python: either a value or a raised exception. -/
inductive Py (α : Type) where
  | ok (a : α) : Py α
  | exn : Py α
deriving DecidableEq

/-- Monadic bind: an exception aborts the rest of the computation. -/
def Py.bind : Py α → (α → Py β) → Py β
  | .ok a, f => f a
  | .exn, _ => .exn

instance : Monad Py where
  pure := Py.ok
  bind := Py.bind

/-- Lift an `Option` into `Py`, reading `none` as a raised exception. -/
def Py.ofOption : Option α → Py α
  | some a => .ok a
  | none => .exn

/-- First binding of key `k` in an object, as Python dict lookup. -/
def jsonGet : JsonObj → String → Option Json
  | .nil, _ => none
  | .cons k v tl, key => if k = key then some v else jsonGet tl key

/-- The keys of an object, in order. -/
def objKeys : JsonObj → List String
  | .nil => []
  | .cons k _ tl => k :: objKeys tl

/-- Number of fields of an object. -/
def objLen : JsonObj → Nat
  | .nil => 0
  | .cons _ _ tl => 1 + objLen tl

/-- Number of elements of an array. -/
def arrLen : JsonArr → Nat
  | .nil => 0
  | .cons _ tl => 1 + arrLen tl

/-- Whether an array contains an element equal to `x` (Python `in`). -/
def arrContains : JsonArr → Json → Bool
  | .nil, _ => false
  | .cons h tl, x => h = x || arrContains tl x

/-- Python truthiness of a JSON value: `None`, `False`, `0`, `""`, `[]`
and `\x7b\x7d` are falsy, everything else truthy. -/
def truthy : Json → Bool
  | .null => false
  | .bool b => b
  | .num n => n ≠ 0
  | .str s => s ≠ ""
  | .arr .nil => false
  | .arr (.cons _ _) => true
  | .obj .nil => false
  | .obj (.cons _ _ _) => true

/-- Python `a or b`: the first operand if truthy, otherwise the second. -/
def pyOr (a b : Json) : Json := if truthy a then a else b

/-- Whitespace characters recognised by Python `str.strip()`. -/
def isPySpace (c : Char) : Bool :=
  c = ' ' || c = '\t' || c = '\n' || c = '\r' || c = '\x0b' || c = '\x0c'

/-- Python `str.strip()` on a character list. -/
def pyStrip (s : List Char) : List Char :=
  ((s.dropWhile isPySpace).reverse.dropWhile isPySpace).reverse

/-- Whether `pre` is a prefix of `l` (Python `str.startswith`). -/
def startsWithL (l pre : List Char) : Bool := pre.isPrefixOf l

/-- Whether `suf` is a suffix of `l` (Python `str.endswith`). -/
def endsWithL (l suf : List Char) : Bool := suf.isSuffixOf l

/-- Whether `p` occurs as a contiguous run inside `l` (Python `in` on
strings). -/
def hasInfixL : List Char → List Char → Bool
  | l, p => if p.isPrefixOf l then true else
      match l with
      | [] => false
      | _ :: t => hasInfixL t p

/-- Python `s.split(sep)` for a one-character separator: splits at every
occurrence and keeps empty segments, so the result is always nonempty. -/
def splitChar (sep : Char) : List Char → List (List Char)
  | [] => [[]]
  | c :: cs =>
    if c = sep then [] :: splitChar sep cs
    else
      match splitChar sep cs with
      | [] => [[c]]
      | l :: ls => (c :: l) :: ls

/-- JSON whitespace skipped by the parser. -/
def isJsonWs (c : Char) : Bool := c = ' ' || c = '\t' || c = '\n' || c = '\r'

/-- Drop leading JSON whitespace. -/
def skipWs : List Char → List Char
  | [] => []
  | c :: cs => if isJsonWs c then skipWs cs else c :: cs

/-- Value of a digit character. -/
def digitVal (c : Char) : Nat := c.toNat - '0'.toNat

/-- Reads a run of decimal digits into a natural number. -/
def readDigits (acc : Nat) : List Char → (Nat × List Char)
  | [] => (acc, [])
  | c :: cs =>
    if c.isDigit then readDigits (acc * 10 + digitVal c) cs
    else (acc, c :: cs)

/-- Unescaped character for a JSON string escape `\\c`; `none` for the
unsupported `\\u` form. -/
def escChar (c : Char) : Option Char :=
  if c = '"' then some '"'
  else if c = '\\' then some '\\'
  else if c = '/' then some '/'
  else if c = 'n' then some '\n'
  else if c = 't' then some '\t'
  else if c = 'r' then some '\r'
  else if c = 'b' then some '\x08'
  else if c = 'f' then some '\x0c'
  else none

mutual

/-- Fuel-based JSON value parser modelling `json.loads`; covers objects,
arrays, strings, integers, booleans and null (no floats, no `\\u`
escapes — the clients exchange none of those). -/
def parseVal : Nat → List Char → Option (Json × List Char)
  | 0, _ => none
  | fuel + 1, cs =>
    match skipWs cs with
    | [] => none
    | c :: cs' =>
      if c = '\x7b' then
        match skipWs cs' with
        | '\x7d' :: rest => some (Json.obj .nil, rest)
        | cs'' =>
          match parseMembers fuel cs'' with
          | some (ms, rest) => some (Json.obj ms, rest)
          | none => none
      else if c = '[' then
        match skipWs cs' with
        | ']' :: rest => some (Json.arr .nil, rest)
        | cs'' =>
          match parseElems fuel cs'' with
          | some (xs, rest) => some (Json.arr xs, rest)
          | none => none
      else if c = '"' then
        match parseStr fuel cs' with
        | some (s, rest) => some (Json.str s, rest)
        | none => none
      else if c = 't' then
        match cs' with
        | 'r' :: 'u' :: 'e' :: rest => some (Json.bool true, rest)
        | _ => none
      else if c = 'f' then
        match cs' with
        | 'a' :: 'l' :: 's' :: 'e' :: rest => some (Json.bool false, rest)
        | _ => none
      else if c = 'n' then
        match cs' with
        | 'u' :: 'l' :: 'l' :: rest => some (Json.null, rest)
        | _ => none
      else if c = '-' then
        match cs' with
        | d :: ds =>
          if d.isDigit then
            match readDigits (digitVal d) ds with
            | (n, rest) => some (Json.num (-(n : Int)), rest)
          else none
        | [] => none
      else if c.isDigit then
        match readDigits (digitVal c) cs' with
        | (n, rest) => some (Json.num (n : Int), rest)
      else none

/-- Parses the members of an object after its opening brace (first member
onward), consuming the closing brace. -/
def parseMembers : Nat → List Char → Option (JsonObj × List Char)
  | 0, _ => none
  | fuel + 1, cs =>
    match skipWs cs with
    | '"' :: cs' =>
      match parseStr fuel cs' with
      | some (k, cs₁) =>
        match skipWs cs₁ with
        | ':' :: cs₂ =>
          match parseVal fuel cs₂ with
          | some (v, cs₃) =>
            match skipWs cs₃ with
            | ',' :: cs₄ =>
              match parseMembers fuel cs₄ with
              | some (ms, rest) => some (.cons k v ms, rest)
              | none => none
            | '\x7d' :: rest => some (.cons k v .nil, rest)
            | _ => none
          | none => none
        | _ => none
      | none => none
    | _ => none

/-- Parses the elements of an array after its opening bracket (first
element onward), consuming the closing bracket. -/
def parseElems : Nat → List Char → Option (JsonArr × List Char)
  | 0, _ => none
  | fuel + 1, cs =>
    match parseVal fuel cs with
    | some (v, cs₁) =>
      match skipWs cs₁ with
      | ',' :: cs₂ =>
        match parseElems fuel cs₂ with
        | some (xs, rest) => some (.cons v xs, rest)
        | none => none
      | ']' :: rest => some (.cons v .nil, rest)
      | _ => none
    | none => none

/-- Parses a JSON string body after its opening quote, consuming the
closing quote. -/
def parseStr : Nat → List Char → Option (String × List Char)
  | 0, _ => none
  | fuel + 1, cs =>
    match cs with
    | [] => none
    | '"' :: rest => some ("", rest)
    | '\\' :: e :: rest =>
      match escChar e with
      | some c =>
        match parseStr fuel rest with
        | some (s, rest') => some (⟨c :: s.data⟩, rest')
        | none => none
      | none => none
    | c :: rest =>
      match parseStr fuel rest with
      | some (s, rest') => some (⟨c :: s.data⟩, rest')
      | none => none

end

/-- Model of `json.loads` on a character list: parse one value, allow
surrounding whitespace, require nothing else. -/
def json_loads' (cs : List Char) : Option Json :=
  match parseVal (cs.length + 1) cs with
  | some (v, rest) => if skipWs rest = [] then some v else none
  | none => none

/-- Model of `json.loads` on a string. -/
def json_loads (s : String) : Option Json := json_loads' s.data

/-- Escape one character for a JSON string literal. -/
def escOut (c : Char) : List Char :=
  if c = '"' then ['\\', '"']
  else if c = '\\' then ['\\', '\\']
  else if c = '\n' then ['\\', 'n']
  else if c = '\t' then ['\\', 't']
  else if c = '\r' then ['\\', 'r']
  else [c]

/-- Escape a whole string body for a JSON string literal. -/
def escStr : List Char → List Char
  | [] => []
  | c :: cs => escOut c ++ escStr cs

mutual

/-- Model of `json.dumps` with Python's default separators
(`", "` between items, `": "` after keys). -/
def json_dumps : Json → String
  | .null => "null"
  | .bool true => "true"
  | .bool false => "false"
  | .num n => ⟨n.repr.data⟩
  | .str s => ⟨'"' :: escStr s.data ++ ['"']⟩
  | .arr xs => ⟨'[' :: (dumpsArr xs).data ++ [']']⟩
  | .obj ms => ⟨'\x7b' :: (dumpsObj ms).data ++ ['\x7d']⟩

/-- Comma-joined dump of array elements. -/
def dumpsArr : JsonArr → String
  | .nil => ""
  | .cons x .nil => json_dumps x
  | .cons x (.cons y tl) =>
    ⟨(json_dumps x).data ++ ',' :: ' ' :: (dumpsArr (.cons y tl)).data⟩

/-- Comma-joined dump of object members. -/
def dumpsObj : JsonObj → String
  | .nil => ""
  | .cons k v .nil => ⟨'"' :: escStr k.data ++ '"' :: ':' :: ' ' :: (json_dumps v).data⟩
  | .cons k v (.cons k' v' tl) =>
    ⟨'"' :: escStr k.data ++ '"' :: ':' :: ' ' :: (json_dumps v).data
      ++ ',' :: ' ' :: (dumpsObj (.cons k' v' tl)).data⟩

end

/-- Python `key in j` for a string key: key membership for dicts, element
membership for lists, substring test for strings; a `TypeError` (modelled
as `exn`) for the remaining types. -/
def pyContainsKey (j : Json) (k : String) : Py Bool :=
  match j with
  | .obj ms => .ok ((jsonGet ms k).isSome)
  | .arr xs => .ok (arrContains xs (Json.str k))
  | .str s => .ok (hasInfixL s.data k.data)
  | _ => .exn

/-- Python `j[k]` for a string key: dict lookup, raising `KeyError` when
the key is absent and `TypeError` on non-dicts. -/
def pySubscript (j : Json) (k : String) : Py Json :=
  match j with
  | .obj ms => Py.ofOption (jsonGet ms k)
  | _ => .exn

/-- Python `j.get(k, d)`: defaulted dict lookup, raising `AttributeError`
when `j` is not a dict. -/
def pyGetD (j : Json) (k : String) (d : Json) : Py Json :=
  match j with
  | .obj ms => .ok ((jsonGet ms k).getD d)
  | _ => .exn

/-- Python `j[0]`: first element of a list, raising `IndexError` on an
empty list.  Indexing a nonempty string would yield a one-character
string on which the subsequent `.get` raises, so for the uses below
(always followed by `.get`) strings are folded into `exn` as well. -/
def pyIndex0 (j : Json) : Py Json :=
  match j with
  | .arr (.cons h _) => .ok h
  | _ => .exn

/-- The SSE event-marker line the clients test response bodies against. -/
def eventMarkerL : List Char := "event: message".data

/-- The SSE data-line marker, `"data: "`. -/
def dataMarkerL : List Char := "data: ".data

/-- First line of `lines` that starts with `"data: "`. -/
def findDataLine : List (List Char) → Option (List Char)
  | [] => none
  | l :: ls => if startsWithL l dataMarkerL then some l else findDataLine ls

/-- Body decoding shared by `list_tools` and `call_tool`: if the body
starts with the SSE event marker, split on newlines, take the first
`"data: "` line, strip the 6-character marker and `json.loads` the rest
(`break` after the first hit); a missing data line leaves the local
`data` unbound (`NameError`, hence `exn`), and a parse failure raises.
A non-SSE body is `json.loads`ed whole. -/
def decode_response_body (body : String) : Py Json :=
  if startsWithL body.data eventMarkerL then
    match findDataLine (splitChar '\n' body.data) with
    | some l => Py.ofOption (json_loads' (l.drop 6))
    | none => .exn
  else Py.ofOption (json_loads' body.data)

/-- The SSE scan of `MCPClient.initialize`: unlike `list_tools` and
`call_tool` it does not `break` at the first data line — it returns
`True` at the first data line whose JSON has no `"error"` key and keeps
scanning otherwise; falling off the loop yields `False`. -/
def initLoop : List (List Char) → Py Bool
  | [] => .ok false
  | l :: ls =>
    if startsWithL l dataMarkerL then
      match json_loads' (l.drop 6) with
      | none => .exn
      | some result =>
        Py.bind (pyContainsKey result "error") fun hasErr =>
          if hasErr then initLoop ls else .ok true
    else initLoop ls

/-- Response handling of `MCPClient.initialize` after a successful POST:
SSE bodies go through `initLoop`, plain bodies are `json.loads`ed and
succeed iff they carry no `"error"` key; the surrounding
`except Exception` turns any raise into `False`. -/
def initialize_handle (body : String) : Bool :=
  let r : Py Bool :=
    if startsWithL body.data eventMarkerL then
      initLoop (splitChar '\n' body.data)
    else
      match json_loads' body.data with
      | none => .exn
      | some d => Py.bind (pyContainsKey d "error") fun hasErr => .ok (!hasErr)
  match r with
  | .ok b => b
  | .exn => false

/-- Result dict returned by `MCPClient.call_tool`: either
`\x7b"success": True, "result": …\x7d` or `\x7b"success": False, "error": …\x7d`. -/
inductive CallToolResult where
  | success (result : Json) : CallToolResult
  | failure (error : Json) : CallToolResult
deriving DecidableEq

/-- Response handling of `MCPClient.call_tool` on the decoded JSON-RPC
response `data` (lines 230–262 of `mcp_client.py`): error object first,
then the `isError` flag (whose branch re-reads `content` with default
`[\x7b\x7d]` and indexes it — an explicitly empty `content` list raises
`IndexError`, which the `except httpx.HTTPError` clause does not catch),
then first-content-item extraction, then the fixed no-output marker. -/
def call_tool_handle (data : Json) : Py CallToolResult :=
  Py.bind (pyContainsKey data "error") fun hasErr =>
  if hasErr then
    Py.bind (pySubscript data "error") fun errObj =>
    Py.bind (pyGetD errObj "message" (Json.str "Unknown error")) fun msg =>
    .ok (.failure msg)
  else
    Py.bind (pyGetD data "result" (Json.obj .nil)) fun result =>
    Py.bind (pyGetD result "isError" (Json.bool false)) fun isErr =>
    if truthy isErr then
      Py.bind (pyGetD result "content" (Json.arr (.cons (Json.obj .nil) .nil))) fun contentD =>
      Py.bind (pyIndex0 contentD) fun first =>
      Py.bind (pyGetD first "text" (Json.str "Unknown error")) fun msg =>
      .ok (.failure msg)
    else
      Py.bind (pyGetD result "content" (Json.arr .nil)) fun content =>
      if truthy content then
        Py.bind (pyIndex0 content) fun first =>
        Py.bind (pyGetD first "text" (Json.str "")) fun t =>
        .ok (.success t)
      else
        .ok (.success (Json.str "Tool executed successfully (no output)"))

/-- The `MCPTool` dataclass.  The dataclass does not enforce its `str`
annotations, so all three fields are JSON values. -/
structure MCPTool where
  name : Json
  description : Json
  input_schema : Json
deriving DecidableEq

/-- Python dict insertion for the tool catalog: overwriting an existing
key keeps its position, a new key is appended. -/
def dictInsert : List (Json × MCPTool) → Json → MCPTool → List (Json × MCPTool)
  | [], k, v => [(k, v)]
  | (k', v') :: rest, k, v =>
    if k' = k then (k, v) :: rest else (k', v') :: dictInsert rest k v

/-- Building an `MCPTool` from one catalog entry of the response:
`tool_data["name"]`, `tool_data["description"]`,
`tool_data["inputSchema"]` — each subscript raising on absence. -/
def extract_tool (td : Json) : Py MCPTool :=
  Py.bind (pySubscript td "name") fun name =>
  Py.bind (pySubscript td "description") fun desc =>
  Py.bind (pySubscript td "inputSchema") fun sch =>
  .ok ⟨name, desc, sch⟩

/-- The catalog loop of `MCPClient.list_tools` (lines 163–171): for each
entry build the tool, append it to the returned list and upsert it into
`self.tools` keyed by `tool.name`; the catalog is never cleared. -/
def list_tools_run : List Json → List (Json × MCPTool) →
    Py (List MCPTool × List (Json × MCPTool))
  | [], cat => .ok ([], cat)
  | td :: tds, cat =>
    Py.bind (extract_tool td) fun t =>
    Py.bind (list_tools_run tds (dictInsert cat t.name t)) fun r =>
    .ok (t :: r.1, r.2)

/-- The `"name"` values carried by the catalog entries of a response. -/
def responseNames (tds : List Json) : List Json :=
  tds.filterMap fun td =>
    match td with
    | .obj ms => jsonGet ms "name"
    | _ => none

/-- Option-valued variant of Python `j.get(k, d)`; `none` stands for the
`AttributeError` raised when `j` is not a dict. -/
def dictGetO (j : Json) (k : String) (d : Json) : Option Json :=
  match j with
  | .obj ms => some ((jsonGet ms k).getD d)
  | _ => none

/-- The chain `tool.get("function", \x7b\x7d).get("parameters", \x7b\x7d).get("properties", \x7b\x7d)`
of the recovery heuristic, followed by `.keys()` which requires the
result to be a dict; `none` stands for a raised `AttributeError`. -/
def toolPropsO (t : Json) : Option JsonObj :=
  match dictGetO t "function" (Json.obj .nil) with
  | none => none
  | some fn =>
    match dictGetO fn "parameters" (Json.obj .nil) with
    | none => none
    | some ps =>
      match dictGetO ps "properties" (Json.obj .nil) with
      | none => none
      | some props =>
        match props with
        | .obj ms => some ms
        | _ => none

/-- The chain `tool.get("function", \x7b\x7d).get("name")` of the recovery
heuristic; `none` stands for a raised `AttributeError`, while a missing
name yields Python `None` (`Json.null`). -/
def toolNameO (t : Json) : Option Json :=
  match dictGetO t "function" (Json.obj .nil) with
  | none => none
  | some fn => dictGetO fn "name" Json.null

/-- Deduplication of a key list, modelling the conversion to a Python
set (only the count of the intersection is ever used). -/
def dedup : List String → List String
  | [] => []
  | x :: xs => if xs.contains x then dedup xs else x :: dedup xs

/-- Size of the intersection `set(keys) & set(pk)` for already
deduplicated `keys`. -/
def interCount (keys pk : List String) : Nat :=
  (keys.filter fun k => pk.contains k).length

/-- A deterministic stand-in for Python's `hash` of a string.  CPython
salts string hashing per process, so nothing observable about the
clients depends on the hash value beyond it yielding some token; the
claims never constrain the synthesized identifier. -/
def pyHash (s : String) : Nat :=
  s.data.foldl (fun a c => (a * 1000003 + c.toNat) % 2305843009213693951) 5381

/-- The synthesized identifier `"call_" + str(hash(json.dumps(parsed)))[:16]`. -/
def mkCallId (parsed : Json) : String :=
  ⟨"call_".data ++ ((Nat.repr (pyHash (json_dumps parsed))).data.take 16)⟩

/-- The explicit-format tool-call dict built by strategy 1 of the
recovery heuristic: arguments are taken verbatim when already a string
and `json.dumps`ed otherwise. -/
def mkExplicitCall (parsed toolName args : Json) : Json :=
  Json.obj (.cons "id" (Json.str (mkCallId parsed))
    (.cons "type" (Json.str "function")
      (.cons "function" (Json.obj (.cons "name" toolName
        (.cons "arguments" (Json.str (match args with
          | .str a => a
          | _ => json_dumps args)) .nil))) .nil)))

/-- The inferred tool-call dict built by strategy 2 of the recovery
heuristic: the whole parsed object is `json.dumps`ed as the arguments. -/
def mkInferredCall (parsed best : Json) : Json :=
  Json.obj (.cons "id" (Json.str (mkCallId parsed))
    (.cons "type" (Json.str "function")
      (.cons "function" (Json.obj (.cons "name" best
        (.cons "arguments" (Json.str (json_dumps parsed)) .nil))) .nil)))

/-- Truthiness of the heuristic's `tools` argument (`None` or a list). -/
def toolsTruthy : Option (List Json) → Bool
  | some (_ :: _) => true
  | _ => false

/-- The scoring loop of strategy 2: fold over the offered tools keeping
the best (strictly improving) score and the corresponding
`function.name`; property extraction raises on malformed tools. -/
def bestMatchLoop : List Json → List String → Json → Nat → Py (Json × Nat)
  | [], _, bm, bs => .ok (bm, bs)
  | t :: ts, keys, bm, bs =>
    Py.bind (Py.ofOption (toolPropsO t)) fun props =>
    let score := interCount keys (objKeys props)
    if bs < score then
      Py.bind (Py.ofOption (toolNameO t)) fun nm =>
      bestMatchLoop ts keys nm score
    else bestMatchLoop ts keys bm bs

/-- Python `content.strip()`ability: the attribute access raises unless
the value is a string. -/
def pyAsStr : Json → Py String
  | .str s => .ok s
  | _ => .exn

/-- The two matching strategies of
`_parse_json_tool_call_from_content`, applied to the parsed JSON value
(lines 86–126): a non-dict falls through to `return None`; strategy 1
adopts explicit tool-name/arguments alias keys when both values are
truthy; strategy 2 infers the tool by parameter-name overlap, requiring
a truthy best name and a positive best score. -/
def heuristic_on_parsed (parsed : Json) (tools : Option (List Json)) :
    Py (Option Json) :=
  match parsed with
  | .obj ms =>
    let toolName := pyOr ((jsonGet ms "tool").getD Json.null)
      (pyOr ((jsonGet ms "name").getD Json.null)
        ((jsonGet ms "function").getD Json.null))
    let args := pyOr ((jsonGet ms "arguments").getD Json.null)
      ((jsonGet ms "params").getD Json.null)
    if truthy toolName && truthy args then
      .ok (some (mkExplicitCall (Json.obj ms) toolName args))
    else
      Py.bind (bestMatchLoop ((tools.getD []))
          (dedup (objKeys ms)) Json.null 0) fun r =>
      if truthy r.1 && 0 < r.2 then
        .ok (some (mkInferredCall (Json.obj ms) r.1))
      else .ok none
  | _ => .ok none

/-- The strip / brace-filter / `json.loads` portion of
`_parse_json_tool_call_from_content` (lines 75–83), with parse failures
absorbed to `None` by the `except (json.JSONDecodeError, ValueError)`
clause. -/
def heuristic_body (s : String) (tools : Option (List Json)) : Py (Option Json) :=
  let c := pyStrip s.data
  if !(startsWithL c ['\x7b'] && endsWithL c ['\x7d']) then .ok none
  else
    match json_loads' c with
    | none => .ok none
    | some parsed => heuristic_on_parsed parsed tools

/-- `OllamaClient._parse_json_tool_call_from_content`: guard on truthy
content and tools (line 71), then strip, filter, parse and match.  The
content must be a string — `.strip()` on any truthy non-string raises. -/
def parse_json_tool_call (content : Json) (tools : Option (List Json)) :
    Py (Option Json) :=
  if !truthy content || !toolsTruthy tools then .ok none
  else Py.bind (pyAsStr content) fun s => heuristic_body s tools

/-- The normalized response dict `_chat_vllm` returns:
`\x7b"message": \x7b"role": "assistant", "content": …, "tool_calls": …\x7d, "done": True\x7d`. -/
def mkChatResp (content tool_calls : Json) : Json :=
  Json.obj (.cons "message" (Json.obj (.cons "role" (Json.str "assistant")
    (.cons "content" content (.cons "tool_calls" tool_calls .nil))))
    (.cons "done" (Json.bool true) .nil))

/-- Python `len`: defined for lists, strings and dicts, raising a
`TypeError` otherwise. -/
def pyLen (j : Json) : Py Nat :=
  match j with
  | .arr xs => .ok (arrLen xs)
  | .str s => .ok s.length
  | .obj ms => .ok (objLen ms)
  | _ => .exn

/-- The non-streaming normalization step of `OllamaClient._chat_vllm`
(lines 226–247) as a function of the first choice's `content`
(`message.get("content", "")`), `tool_calls` (`message.get("tool_calls")`)
and the offered `tools`: when tools were offered, no structured tool
calls came back and the content is truthy, run the recovery heuristic;
a recovered call becomes the sole tool call and the content is blanked. -/
def chat_vllm_normalize (content tool_calls : Json)
    (tools : Option (List Json)) : Py Json :=
  Py.bind (if toolsTruthy tools then
      if !truthy tool_calls then .ok (truthy content)
      else
        Py.bind (pyLen tool_calls) fun n =>
        .ok (decide (n = 0) && truthy content)
    else .ok false) fun cond =>
  if cond then
    Py.bind (parse_json_tool_call content tools) fun r =>
    match r with
    | some c => .ok (mkChatResp (Json.str "") (Json.arr (.cons c .nil)))
    | none => .ok (mkChatResp content tool_calls)
  else .ok (mkChatResp content tool_calls)

/-- `OllamaClient._chat_ollama` returns the decoded backend response
unmodified (`return response.json()`), so the native dialect performs no
normalization and in particular never invokes the recovery heuristic. -/
def chat_ollama_normalize (resp : Json) : Json := resp

/-- The URL `_stream_chat` posts to — unconditionally the native chat
path. -/
def stream_chat_url (base : String) : String := base ++ "/api/chat"

/-- The URL a `_chat_vllm` call posts to: streaming requests are handed
to `_stream_chat` (hence the native path), non-streaming requests go to
the OpenAI-compatible completions path. -/
def chat_vllm_post_url (base : String) (stream : Bool) : String :=
  if stream then stream_chat_url base else base ++ "/v1/chat/completions"

/-- The URL a `_chat_ollama` call posts to. -/
def chat_ollama_post_url (base : String) (stream : Bool) : String :=
  if stream then stream_chat_url base else base ++ "/api/chat"

/-- The two legal backend dialects. -/
inductive Backend where
  | ollama : Backend
  | vllm : Backend
deriving DecidableEq

/-- The URL `chat()` posts to, by dialect. -/
def chat_post_url (backend : Backend) (base : String) (stream : Bool) : String :=
  match backend with
  | .ollama => chat_ollama_post_url base stream
  | .vllm => chat_vllm_post_url base stream

/-- `OllamaClient.check_model_exists`, parameterized by the outcome of
the underlying `list_models()` network call (`exn` for any transport or
decode failure `list_models` would propagate): the name-field extraction
`m.get("name", "")` / `m.get("id", "")` may itself raise, and the
enclosing `except Exception` turns every raise into `False`. -/
def check_model_exists (backend : Backend) (modelName : String)
    (listResult : Py (List Json)) : Bool :=
  let r : Py Bool :=
    Py.bind listResult fun models =>
    Py.bind (match backend with
      | .ollama => models.foldr (fun m acc =>
          Py.bind (pyGetD m "name" (Json.str "")) fun n =>
          Py.bind acc fun ns => .ok (n :: ns)) (.ok [])
      | .vllm => models.foldr (fun m acc =>
          Py.bind (pyGetD m "id" (Json.str "")) fun n =>
          Py.bind acc fun ns => .ok (n :: ns)) (.ok [])) fun names =>
    .ok (names.contains (Json.str modelName))
  match r with
  | .ok b => b
  | .exn => false

/-- An SSE body with a single data line carrying the payload `s`. -/
def sseWrap (s : String) : String := "event: message\ndata: " ++ s ++ "\n"

/-- An SSE body with two data lines carrying the payloads `s` and `t`. -/
def sseWrap2 (s t : String) : String :=
  "event: message\ndata: " ++ s ++ "\ndata: " ++ t ++ "\n"

/-- A content item of a `tools/call` result, viewed structurally: its
`"text"` field, if any (other fields are irrelevant to `call_tool`). -/
structure ContentItem where
  text : Option Json
deriving DecidableEq

/-- Encoding of a content item back into the JSON the server sent. -/
def ContentItem.encode : ContentItem → Json
  | ⟨none⟩ => Json.obj .nil
  | ⟨some v⟩ => Json.obj (.cons "text" v .nil)

/-- Encoding of a content list. -/
def encodeContent : List ContentItem → JsonArr
  | [] => .nil
  | i :: is => .cons i.encode (encodeContent is)

/-- The `result` object of a `tools/call` response, viewed structurally:
an optional `"isError"` value and an optional `"content"` list. -/
structure RpcResult where
  isError : Option Json
  content : Option (List ContentItem)
deriving DecidableEq

/-- Encoding of a result object back into JSON. -/
def RpcResult.encode (r : RpcResult) : Json :=
  Json.obj ((match r.isError with
    | none => id
    | some v => JsonObj.cons "isError" v)
    (match r.content with
      | none => JsonObj.nil
      | some is => JsonObj.cons "content" (Json.arr (encodeContent is)) .nil))

/-- The `error` member of a JSON-RPC response, viewed structurally:
absent, or an error object with an optional `"message"`. -/
inductive ErrorField where
  | absent : ErrorField
  | present (message : Option Json) : ErrorField
deriving DecidableEq

/-- A decoded `tools/call` response of the JSON-RPC shape the protocol
prescribes: an optional top-level `error` object and an optional
`result` object. -/
structure RpcResponse where
  error : ErrorField
  result : Option RpcResult
deriving DecidableEq

/-- Encoding of a structured response into the JSON `call_tool` decodes. -/
def RpcResponse.encode (r : RpcResponse) : Json :=
  Json.obj ((match r.error with
    | .absent => id
    | .present none => JsonObj.cons "error" (Json.obj .nil)
    | .present (some m) => JsonObj.cons "error" (Json.obj (.cons "message" m .nil)))
    (match r.result with
      | none => JsonObj.nil
      | some res => JsonObj.cons "result" res.encode .nil))

/-- The amended claim C1, as a function of the structured response view:
a protocol error yields failure with its message (`"Unknown error"` when
absent); a truthy `isError` flag yields failure with the first content
item's text, except that an explicitly empty content list raises
(`IndexError`), while an absent content list yields
failure `"Unknown error"`; otherwise a nonempty content list yields
success with the first item's text and an empty or absent one the fixed
no-output marker. -/
def call_tool_claim (r : RpcResponse) : Py CallToolResult :=
  match r.error with
  | .present m => .ok (.failure (m.getD (Json.str "Unknown error")))
  | .absent =>
    let isErr := match r.result with
      | some res => truthy (res.isError.getD (Json.bool false))
      | none => false
    if isErr then
      match (r.result.map RpcResult.content).join with
      | none => .ok (.failure (Json.str "Unknown error"))
      | some [] => .exn
      | some (i :: _) => .ok (.failure (i.text.getD (Json.str "Unknown error")))
    else
      match (r.result.map RpcResult.content).join with
      | some (i :: _) => .ok (.success (i.text.getD (Json.str "")))
      | _ => .ok (.success (Json.str "Tool executed successfully (no output)"))

/-- Overlap score of one offered tool against the (deduplicated) key set
of the parsed object; zero for tools whose property extraction raises
(never reached under the well-formedness hypotheses). -/
def scoreOfD (keys : List String) (t : Json) : Nat :=
  match toolPropsO t with
  | some ms => interCount keys (objKeys ms)
  | none => 0

/-- The highest overlap score among the offered tools. -/
def maxScore (keys : List String) (ts : List Json) : Nat :=
  ts.foldr (fun t a => max (scoreOfD keys t) a) 0

/-- The `function.name` of the first offered tool attaining score `m`. -/
def firstBestNameAux (keys : List String) (ts : List Json) (m : Nat) : Json :=
  match ts with
  | [] => Json.null
  | t :: ts' =>
    if scoreOfD keys t = m then (toolNameO t).getD Json.null
    else firstBestNameAux keys ts' m

/-- The claim-side selector of C4, following the claim's words: the tool
whose parameter-schema property names overlap the object's keys with the
strictly highest positive count wins, first-seen on ties; none when no
tool shares any key. -/
def claimBest (keys : List String) (ts : List Json) : Option Json :=
  let m := maxScore keys ts
  if m = 0 then none else some (firstBestNameAux keys ts m)

theorem data_append (a b : String) : (a ++ b).data = a.data ++ b.data := by
  cases a
  cases b
  rfl

theorem splitChar_ne_nil (sep : Char) : ∀ cs, splitChar sep cs ≠ []
  | [] => by simp [splitChar]
  | c :: cs => by
    by_cases h : c = sep
    · simp [splitChar, h]
    · simp only [splitChar, h, if_false]
      cases hs : splitChar sep cs with
      | nil => exact absurd hs (splitChar_ne_nil sep cs)
      | cons l ls => simp

theorem splitChar_append (sep : Char) : ∀ (pre rest : List Char), sep ∉ pre →
    splitChar sep (pre ++ sep :: rest) = pre :: splitChar sep rest
  | [], rest, _ => by simp [splitChar]
  | c :: pre, rest, h => by
    have hc : ¬ c = sep := fun e => h (e ▸ List.mem_cons_self c pre)
    have ih := splitChar_append sep pre rest (fun m => h (List.mem_cons_of_mem c m))
    simp only [List.cons_append, splitChar, hc, if_false, List.append_eq, ih]

theorem isPrefixOf_self_append : ∀ (p r : List Char), p.isPrefixOf (p ++ r) = true
  | [], _ => by simp [List.isPrefixOf]
  | c :: p, r => by
    simp [List.isPrefixOf, isPrefixOf_self_append p r]

theorem drop6_dataMarker (s : List Char) : (dataMarkerL ++ s).drop 6 = s := rfl

theorem sseWrap_data (s : String) :
    (sseWrap s).data = eventMarkerL ++ '\n' :: (dataMarkerL ++ (s.data ++ ['\n'])) := by
  have h : (sseWrap s).data = "event: message\ndata: ".data ++ (s.data ++ "\n".data) := by
    simp only [sseWrap, data_append, List.append_assoc]
  rw [h]
  rfl

theorem sseWrap2_data (s t : String) :
    (sseWrap2 s t).data = eventMarkerL ++ '\n' ::
      (dataMarkerL ++ (s.data ++ ('\n' :: (dataMarkerL ++ (t.data ++ ['\n']))))) := by
  have h : (sseWrap2 s t).data =
      "event: message\ndata: ".data ++ (s.data ++ ("\ndata: ".data ++ (t.data ++ "\n".data))) := by
    simp only [sseWrap2, data_append, List.append_assoc]
  rw [h]
  rfl

theorem sse_lines (s : String) (hs : '\n' ∉ s.data) :
    splitChar '\n' (sseWrap s).data = [eventMarkerL, dataMarkerL ++ s.data, []] := by
  rw [sseWrap_data]
  have h1 : ('\n' : Char) ∉ eventMarkerL := by decide
  have h2 : ('\n' : Char) ∉ dataMarkerL ++ s.data := by
    intro hm
    rcases List.mem_append.1 hm with hm | hm
    · exact absurd hm (by decide)
    · exact hs hm
  rw [splitChar_append _ _ _ h1]
  have h3 : dataMarkerL ++ (s.data ++ ['\n']) = (dataMarkerL ++ s.data) ++ '\n' :: [] := by
    simp [List.append_assoc]
  rw [h3, splitChar_append _ _ _ h2]
  rfl

theorem sse2_lines (s t : String) (hs : '\n' ∉ s.data) (ht : '\n' ∉ t.data) :
    splitChar '\n' (sseWrap2 s t).data =
      [eventMarkerL, dataMarkerL ++ s.data, dataMarkerL ++ t.data, []] := by
  rw [sseWrap2_data]
  have h1 : ('\n' : Char) ∉ eventMarkerL := by decide
  have h2 : ('\n' : Char) ∉ dataMarkerL ++ s.data := by
    intro hm
    rcases List.mem_append.1 hm with hm | hm
    · exact absurd hm (by decide)
    · exact hs hm
  have h2' : ('\n' : Char) ∉ dataMarkerL ++ t.data := by
    intro hm
    rcases List.mem_append.1 hm with hm | hm
    · exact absurd hm (by decide)
    · exact ht hm
  rw [splitChar_append _ _ _ h1]
  have h3 : dataMarkerL ++ (s.data ++ ('\n' :: (dataMarkerL ++ (t.data ++ ['\n'])))) =
      (dataMarkerL ++ s.data) ++ '\n' :: (dataMarkerL ++ (t.data ++ ['\n'])) := by
    simp [List.append_assoc]
  rw [h3, splitChar_append _ _ _ h2]
  have h4 : dataMarkerL ++ (t.data ++ ['\n']) = (dataMarkerL ++ t.data) ++ '\n' :: [] := by
    simp [List.append_assoc]
  rw [h4, splitChar_append _ _ _ h2']
  rfl

theorem sseWrap_startsWith (s : String) :
    startsWithL (sseWrap s).data eventMarkerL = true := by
  rw [sseWrap_data, startsWithL]
  have h : eventMarkerL ++ '\n' :: (dataMarkerL ++ (s.data ++ ['\n'])) =
      eventMarkerL ++ ('\n' :: (dataMarkerL ++ (s.data ++ ['\n']))) := rfl
  rw [h]
  exact isPrefixOf_self_append _ _

theorem sseWrap2_startsWith (s t : String) :
    startsWithL (sseWrap2 s t).data eventMarkerL = true := by
  rw [sseWrap2_data, startsWithL]
  exact isPrefixOf_self_append _ _

theorem findDataLine_sse (s : String) (rest : List (List Char)) :
    findDataLine (eventMarkerL :: (dataMarkerL ++ s.data) :: rest) =
      some (dataMarkerL ++ s.data) := by
  have h1 : startsWithL eventMarkerL dataMarkerL = false := by decide
  have h2 : startsWithL (dataMarkerL ++ s.data) dataMarkerL = true :=
    isPrefixOf_self_append _ _
  simp [findDataLine, h1, h2]

theorem decode_sseWrap (s : String) (hs : '\n' ∉ s.data) :
    decode_response_body (sseWrap s) = Py.ofOption (json_loads' s.data) := by
  simp only [decode_response_body, sseWrap_startsWith s, if_true, sse_lines s hs,
    findDataLine_sse, drop6_dataMarker]

theorem decode_sseWrap2 (s t : String) (hs : '\n' ∉ s.data) (ht : '\n' ∉ t.data) :
    decode_response_body (sseWrap2 s t) = Py.ofOption (json_loads' s.data) := by
  simp only [decode_response_body, sseWrap2_startsWith s t, if_true,
    sse2_lines s t hs ht, findDataLine_sse, drop6_dataMarker]

theorem decode_bare (s : String) (hb : startsWithL s.data eventMarkerL = false) :
    decode_response_body s = Py.ofOption (json_loads' s.data) := by
  simp only [decode_response_body, hb, Bool.false_eq_true, if_false]

theorem initLoop_skip (l : List Char) (ls : List (List Char))
    (h : startsWithL l dataMarkerL = false) : initLoop (l :: ls) = initLoop ls := by
  simp only [initLoop, h, Bool.false_eq_true, if_false]

theorem initLoop_data_err (l : List Char) (ls : List (List Char)) (d : Json)
    (h : startsWithL l dataMarkerL = true) (hp : json_loads' (l.drop 6) = some d)
    (he : pyContainsKey d "error" = Py.ok true) : initLoop (l :: ls) = initLoop ls := by
  simp only [initLoop, h, if_true, hp, he, Py.bind]

theorem initLoop_data_ok (l : List Char) (ls : List (List Char)) (d : Json)
    (h : startsWithL l dataMarkerL = true) (hp : json_loads' (l.drop 6) = some d)
    (he : pyContainsKey d "error" = Py.ok false) : initLoop (l :: ls) = Py.ok true := by
  simp only [initLoop, h, if_true, hp, he, Py.bind, Bool.false_eq_true, if_false]

theorem initialize_handle_sse (body : String)
    (h : startsWithL body.data eventMarkerL = true) :
    initialize_handle body =
      (match initLoop (splitChar '\n' body.data) with
        | .ok b => b
        | .exn => false) := by
  simp only [initialize_handle, h, if_true]

theorem initialize_handle_sse2 (s t : String) (hs : '\n' ∉ s.data) (ht : '\n' ∉ t.data)
    (d₁ d₂ : Json) (hps : json_loads' s.data = some d₁) (hpt : json_loads' t.data = some d₂)
    (he₁ : pyContainsKey d₁ "error" = .ok true)
    (he₂ : pyContainsKey d₂ "error" = .ok false) :
    initialize_handle (sseWrap2 s t) = true := by
  have hnd : startsWithL eventMarkerL dataMarkerL = false := by decide
  have hd₁ : startsWithL (dataMarkerL ++ s.data) dataMarkerL = true :=
    isPrefixOf_self_append _ _
  have hd₂ : startsWithL (dataMarkerL ++ t.data) dataMarkerL = true :=
    isPrefixOf_self_append _ _
  have hps' : json_loads' ((dataMarkerL ++ s.data).drop 6) = some d₁ := by
    rw [drop6_dataMarker]; exact hps
  have hpt' : json_loads' ((dataMarkerL ++ t.data).drop 6) = some d₂ := by
    rw [drop6_dataMarker]; exact hpt
  rw [initialize_handle_sse _ (sseWrap2_startsWith s t), sse2_lines s t hs ht,
    initLoop_skip _ _ hnd, initLoop_data_err _ _ d₁ hd₁ hps' he₁,
    initLoop_data_ok _ _ d₂ hd₂ hpt' he₂]

/-- Claim C2, amended.  The single-data-line equivalence holds for all
three operations and — for `list_tools` and `call_tool` — subsequent
data lines are indeed ignored; `initialize`, however, does not stop at
the first data line: it keeps scanning until it finds a data line whose
JSON carries no `"error"` key.  Stated for payloads without embedded
newlines (an SSE data line cannot carry one) that do not themselves
start with the event marker: (1) the shared `list_tools`/`call_tool`
decoder on the SSE framing of `s` yields exactly `json.loads` of `s`;
(2) likewise on the bare body `s`; (3) a second data line `t` is ignored
by that decoder; (4) `initialize` on a two-data-line body whose first
payload carries an `"error"` key and whose second does not returns
`True`, reading past the first data line. -/
theorem C2_sse_decoding_amended (s t : String)
    (hs : '\n' ∉ s.data) (ht : '\n' ∉ t.data)
    (hb : startsWithL s.data eventMarkerL = false) :
    decode_response_body (sseWrap s) = Py.ofOption (json_loads' s.data)
    ∧ decode_response_body s = Py.ofOption (json_loads' s.data)
    ∧ decode_response_body (sseWrap2 s t) = Py.ofOption (json_loads' s.data)
    ∧ (∀ d₁ d₂, json_loads' s.data = some d₁ → json_loads' t.data = some d₂ →
        pyContainsKey d₁ "error" = .ok true → pyContainsKey d₂ "error" = .ok false →
        initialize_handle (sseWrap2 s t) = true) :=
  ⟨decode_sseWrap s hs, decode_bare s hb, decode_sseWrap2 s t hs ht,
    fun d₁ d₂ hps hpt he₁ he₂ => initialize_handle_sse2 s t hs ht d₁ d₂ hps hpt he₁ he₂⟩

/-- Claim C2, counterexample to the claim as stated: `initialize` does
not parse only the first `"data: "` line.  On a body whose first data
line is `\x7b"error": \x7b\x7d\x7d` and whose second is `\x7b"result": \x7b\x7d\x7d` it
returns `True`, while on the same body truncated to the first data line
it returns `False` — so the outcome depends on a subsequent data line,
which the claim says is ignored. -/
theorem C2_sse_decoding_counterexample :
    initialize_handle "event: message\ndata: \x7b\"error\": \x7b\x7d\x7d\ndata: \x7b\"result\": \x7b\x7d\x7d\n" = true
    ∧ initialize_handle "event: message\ndata: \x7b\"error\": \x7b\x7d\x7d\n" = false := by
  constructor
  · decide
  · decide

/-- Claim C2, witness: the amended theorem applied to the concrete
payloads `\x7b"error": \x7b\x7d\x7d` and `\x7b"result": \x7b\x7d\x7d`. -/
theorem C2_sse_decoding_amended_witness :
    decode_response_body (sseWrap "\x7b\"error\": \x7b\x7d\x7d") =
      Py.ofOption ( json_loads' "\x7b\"error\": \x7b\x7d\x7d".data)
    ∧ initialize_handle (sseWrap2 "\x7b\"error\": \x7b\x7d\x7d" "\x7b\"result\": \x7b\x7d\x7d") = true := by
  have h := C2_sse_decoding_amended "\x7b\"error\": \x7b\x7d\x7d" "\x7b\"result\": \x7b\x7d\x7d"
    (by decide) (by decide) (by decide)
  exact ⟨h.1, h.2.2.2 (Json.obj (.cons "error" (Json.obj .nil) .nil))
    (Json.obj (.cons "result" (Json.obj .nil) .nil))
    (by decide) (by decide) (by decide) (by decide)⟩

/-- Claim C1, amended.  On every decoded response of the JSON-RPC shape
(optional `error` object with optional `message`, optional `result`
object with optional `isError` flag and optional list of content items),
`call_tool` behaves exactly as `call_tool_claim` prescribes: failure
with the error's message on a protocol error, failure with the first
content item's text on a truthy `isError` flag, success with the first
content item's text otherwise, and success with the fixed marker
`"Tool executed successfully (no output)"` when the content list is
empty or absent — except that a truthy `isError` flag combined with an
explicitly empty content list raises an uncaught `IndexError` instead of
returning. -/
theorem C1_call_tool_amended (r : RpcResponse) :
    call_tool_handle r.encode = call_tool_claim r := by
  rcases r with ⟨err, res⟩
  rcases err with _ | msg
  case present =>
    rcases msg with _ | m <;>
      simp [RpcResponse.encode, call_tool_handle, call_tool_claim, pyContainsKey,
        pySubscript, pyGetD, jsonGet, Py.bind, Py.ofOption]
  case absent =>
    rcases res with _ | ⟨ie, cont⟩
    · rfl
    rcases ie with _ | v
    · rcases cont with _ | (_ | ⟨⟨tx⟩, is⟩)
      · rfl
      · rfl
      · rcases tx with _ | tv <;> rfl
    · rcases cont with _ | (_ | ⟨⟨tx⟩, is⟩)
      · cases htv : truthy v <;>
          simp [RpcResponse.encode, RpcResult.encode, call_tool_handle, call_tool_claim,
            pyContainsKey, pySubscript, pyGetD, pyIndex0, jsonGet, Py.bind, Py.ofOption,
            htv, encodeContent, truthy]
      · cases htv : truthy v <;>
          simp [RpcResponse.encode, RpcResult.encode, call_tool_handle, call_tool_claim,
            pyContainsKey, pySubscript, pyGetD, pyIndex0, jsonGet, Py.bind, Py.ofOption,
            htv, encodeContent, truthy]
      · rcases tx with _ | tv <;> cases htv : truthy v <;>
          simp [RpcResponse.encode, RpcResult.encode, call_tool_handle, call_tool_claim,
            pyContainsKey, pySubscript, pyGetD, pyIndex0, jsonGet, Py.bind, Py.ofOption,
            htv, encodeContent, ContentItem.encode, truthy]

/-- Claim C1, counterexample to the claim as stated: `call_tool` does
not always return a structured result — on the decoded response
`\x7b"result": \x7b"isError": true, "content": []\x7d\x7d` the error branch
evaluates `result.get("content", [\x7b\x7d])[0]` on an explicitly empty list
and raises an `IndexError` that the `except httpx.HTTPError` clause does
not catch. -/
theorem C1_call_tool_counterexample :
    call_tool_handle (Json.obj (.cons "result" (Json.obj
      (.cons "isError" (Json.bool true) (.cons "content" (Json.arr .nil) .nil))) .nil)) =
      Py.exn := rfl

theorem dictInsert_mem_of_ne (k₀ : Json) (v : MCPTool) (k : Json) (t : MCPTool) :
    ∀ cat : List (Json × MCPTool), (k, t) ∈ cat → k ≠ k₀ → (k, t) ∈ dictInsert cat k₀ v
  | [], hm, _ => absurd hm (List.not_mem_nil _)
  | (k', v') :: rest, hm, hne => by
    simp only [dictInsert]
    by_cases h : k' = k₀
    · simp only [h, if_true]
      rcases List.mem_cons.1 hm with he | hm'
      · injection he with h1 h2
        exact absurd (h1.trans h) hne
      · exact List.mem_cons_of_mem _ hm'
    · simp only [h, if_false]
      rcases List.mem_cons.1 hm with he | hm'
      · exact he ▸ List.mem_cons_self _ _
      · exact List.mem_cons_of_mem _ (dictInsert_mem_of_ne k₀ v k t rest hm' hne)

theorem dictInsert_subset (k₀ : Json) (v : MCPTool) :
    ∀ (cat : List (Json × MCPTool)) p, p ∈ dictInsert cat k₀ v → p = (k₀, v) ∨ p ∈ cat
  | [], p, hp => by
    simp only [dictInsert, List.mem_singleton] at hp
    exact Or.inl hp
  | (k', v') :: rest, p, hp => by
    simp only [dictInsert] at hp
    by_cases h : k' = k₀
    · simp only [h, if_true] at hp
      rcases List.mem_cons.1 hp with he | hm'
      · exact Or.inl he
      · exact Or.inr (List.mem_cons_of_mem _ hm')
    · simp only [h, if_false] at hp
      rcases List.mem_cons.1 hp with he | hm'
      · exact Or.inr (he ▸ List.mem_cons_self _ _)
      · rcases dictInsert_subset k₀ v rest p hm' with h1 | h2
        · exact Or.inl h1
        · exact Or.inr (List.mem_cons_of_mem _ h2)

theorem dictInsert_length_fresh (k : Json) (v : MCPTool) :
    ∀ cat : List (Json × MCPTool), k ∉ cat.map Prod.fst →
      (dictInsert cat k v).length = cat.length + 1
  | [], _ => rfl
  | (k', v') :: rest, h => by
    have hne : ¬ k' = k := by
      intro e
      exact h (by simp [e])
    simp only [dictInsert, hne, if_false, List.length_cons]
    rw [dictInsert_length_fresh k v rest
      (fun m => h (by rw [List.map_cons]; exact List.mem_cons_of_mem _ m))]

theorem extract_tool_name (td : Json) (t : MCPTool) (h : extract_tool td = .ok t) :
    ∃ ms, td = Json.obj ms ∧ jsonGet ms "name" = some t.name := by
  cases td with
  | obj ms =>
    refine ⟨ms, rfl, ?_⟩
    simp only [extract_tool, pySubscript, Py.bind] at h
    cases hn : jsonGet ms "name" with
    | none => rw [hn] at h; simp [Py.ofOption] at h
    | some nm =>
      rw [hn] at h
      simp only [Py.ofOption] at h
      cases hd : jsonGet ms "description" with
      | none => rw [hd] at h; simp [Py.ofOption] at h
      | some d =>
        rw [hd] at h
        simp only [Py.ofOption] at h
        cases hs : jsonGet ms "inputSchema" with
        | none => rw [hs] at h; simp [Py.ofOption] at h
        | some sc =>
          rw [hs] at h
          simp only [Py.ofOption] at h
          injection h with h'
          rw [← h']
  | null => simp [extract_tool, pySubscript, Py.bind] at h
  | bool b => simp [extract_tool, pySubscript, Py.bind] at h
  | num n => simp [extract_tool, pySubscript, Py.bind] at h
  | str s => simp [extract_tool, pySubscript, Py.bind] at h
  | arr xs => simp [extract_tool, pySubscript, Py.bind] at h

theorem list_tools_run_mem : ∀ (tds : List Json) (cat : List (Json × MCPTool))
    (ret : List MCPTool) (cat' : List (Json × MCPTool)),
    list_tools_run tds cat = .ok (ret, cat') →
    ∀ k t, (k, t) ∈ cat → k ∉ responseNames tds → (k, t) ∈ cat'
  | [], cat, ret, cat', hrun, k, t, hmem, _ => by
    simp only [list_tools_run] at hrun
    injection hrun with h
    injection h with h1 h2
    exact h2 ▸ hmem
  | td :: tds, cat, ret, cat', hrun, k, t, hmem, hk => by
    simp only [list_tools_run] at hrun
    cases hext : extract_tool td with
    | exn => rw [hext] at hrun; simp [Py.bind] at hrun
    | ok t₀ =>
      rw [hext] at hrun
      simp only [Py.bind] at hrun
      cases hrec : list_tools_run tds (dictInsert cat t₀.name t₀) with
      | exn => rw [hrec] at hrun; simp at hrun
      | ok r =>
        rw [hrec] at hrun
        simp only at hrun
        injection hrun with h
        injection h with h1 h2
        obtain ⟨ms, hms, hname⟩ := extract_tool_name td t₀ hext
        have hne : k ≠ t₀.name := by
          intro e
          apply hk
          simp only [responseNames, hms, List.filterMap_cons, hname]
          exact e ▸ List.mem_cons_self _ _
        have hk' : k ∉ responseNames tds := by
          intro m
          apply hk
          simp only [responseNames, hms, List.filterMap_cons, hname]
          exact List.mem_cons_of_mem _ m
        have := list_tools_run_mem tds (dictInsert cat t₀.name t₀) r.1 r.2 (by rw [hrec])
          k t (dictInsert_mem_of_ne t₀.name t₀ k t cat hmem hne) hk'
        exact h2 ▸ this

theorem list_tools_run_keys : ∀ (tds : List Json) (cat : List (Json × MCPTool))
    (ret : List MCPTool) (cat' : List (Json × MCPTool)),
    list_tools_run tds cat = .ok (ret, cat') →
    (∀ p ∈ cat, p.1 = p.2.name) → ∀ p ∈ cat', p.1 = p.2.name
  | [], cat, ret, cat', hrun, hkv => by
    simp only [list_tools_run] at hrun
    injection hrun with h
    injection h with h1 h2
    exact h2 ▸ hkv
  | td :: tds, cat, ret, cat', hrun, hkv => by
    simp only [list_tools_run] at hrun
    cases hext : extract_tool td with
    | exn => rw [hext] at hrun; simp [Py.bind] at hrun
    | ok t₀ =>
      rw [hext] at hrun
      simp only [Py.bind] at hrun
      cases hrec : list_tools_run tds (dictInsert cat t₀.name t₀) with
      | exn => rw [hrec] at hrun; simp at hrun
      | ok r =>
        rw [hrec] at hrun
        simp only at hrun
        injection hrun with h
        injection h with h1 h2
        have hkv' : ∀ p ∈ dictInsert cat t₀.name t₀, p.1 = p.2.name := by
          intro p hp
          rcases dictInsert_subset t₀.name t₀ cat p hp with he | hin
          · rw [he]
          · exact hkv p hin
        exact h2 ▸ list_tools_run_keys tds _ r.1 r.2 (by rw [hrec]) hkv'

theorem list_tools_run_length : ∀ (tds : List Json) (cat : List (Json × MCPTool))
    (ret : List MCPTool) (cat' : List (Json × MCPTool)),
    list_tools_run tds cat = .ok (ret, cat') →
    (ret.map fun t => t.name).Nodup →
    (∀ t ∈ ret, t.name ∉ cat.map Prod.fst) →
    cat'.length = cat.length + ret.length
  | [], cat, ret, cat', hrun, _, _ => by
    simp only [list_tools_run] at hrun
    injection hrun with h
    injection h with h1 h2
    rw [← h1, ← h2]
    simp
  | td :: tds, cat, ret, cat', hrun, hnd, hfresh => by
    simp only [list_tools_run] at hrun
    cases hext : extract_tool td with
    | exn => rw [hext] at hrun; simp [Py.bind] at hrun
    | ok t₀ =>
      rw [hext] at hrun
      simp only [Py.bind] at hrun
      cases hrec : list_tools_run tds (dictInsert cat t₀.name t₀) with
      | exn => rw [hrec] at hrun; simp at hrun
      | ok r =>
        rw [hrec] at hrun
        simp only at hrun
        injection hrun with h
        injection h with h1 h2
        subst h2
        rw [← h1] at hnd hfresh
        simp only [List.map_cons, List.nodup_cons] at hnd
        have hfr₀ : t₀.name ∉ cat.map Prod.fst := hfresh t₀ (List.mem_cons_self _ _)
        have hlen := dictInsert_length_fresh t₀.name t₀ cat hfr₀
        have hfresh' : ∀ t ∈ r.1, t.name ∉ (dictInsert cat t₀.name t₀).map Prod.fst := by
          intro t ht hmap
          rcases List.mem_map.1 hmap with ⟨p, hp, hpk⟩
          rcases dictInsert_subset t₀.name t₀ cat p hp with he | hin
          · apply hnd.1
            have hte : t.name = t₀.name := by rw [← hpk, he]
            exact List.mem_map.2 ⟨t, ht, hte⟩
          · exact hfresh t (List.mem_cons_of_mem _ ht) (List.mem_map.2 ⟨p, hin, hpk⟩)
        have := list_tools_run_length tds _ r.1 r.2 (by rw [hrec]) hnd.2 hfresh'
        rw [this, hlen, ← h1]
        simp only [List.length_cons]
        omega

/-- Claim C9: `list_tools` never removes catalog entries — a cached
binding whose key does not occur among the `"name"` fields of the
server's response entries is still present, unchanged, after a
successful run of the catalog loop; entries are only added or
overwritten by name, the catalog is never cleared. -/
theorem C9_list_tools_no_removal (tds : List Json) (cat : List (Json × MCPTool))
    (ret : List MCPTool) (cat' : List (Json × MCPTool)) (k : Json) (t : MCPTool)
    (hrun : list_tools_run tds cat = .ok (ret, cat'))
    (hmem : (k, t) ∈ cat) (hk : k ∉ responseNames tds) : (k, t) ∈ cat' :=
  list_tools_run_mem tds cat ret cat' hrun k t hmem hk

/-- Claim C9, witness: a pre-existing `"old"` entry survives a catalog
refresh that returns only a `"new"` tool. -/
theorem C9_list_tools_no_removal_witness :
    (Json.str "old", (⟨Json.str "old", Json.str "d", Json.obj .nil⟩ : MCPTool)) ∈
      ([(Json.str "old", ⟨Json.str "old", Json.str "d", Json.obj .nil⟩),
        (Json.str "new", ⟨Json.str "new", Json.str "nd", Json.obj .nil⟩)] :
        List (Json × MCPTool)) :=
  C9_list_tools_no_removal
    [Json.obj (.cons "name" (Json.str "new") (.cons "description" (Json.str "nd")
      (.cons "inputSchema" (Json.obj .nil) .nil)))]
    [(Json.str "old", ⟨Json.str "old", Json.str "d", Json.obj .nil⟩)]
    [⟨Json.str "new", Json.str "nd", Json.obj .nil⟩]
    [(Json.str "old", ⟨Json.str "old", Json.str "d", Json.obj .nil⟩),
      (Json.str "new", ⟨Json.str "new", Json.str "nd", Json.obj .nil⟩)]
    (Json.str "old") ⟨Json.str "old", Json.str "d", Json.obj .nil⟩
    (by decide) (by decide) (by decide)

/-- Claim C3, amended: the catalog loop upserts entries keyed by tool
name rather than replacing the catalog, so every cached entry's key
equals that entry's own name field (provided pre-existing entries
satisfied this), and when the catalog was empty beforehand and the
returned tools carry distinct names, the returned list's length equals
the number of cached entries afterwards. -/
theorem C3_list_tools_amended (tds : List Json) (cat : List (Json × MCPTool))
    (ret : List MCPTool) (cat' : List (Json × MCPTool))
    (hrun : list_tools_run tds cat = .ok (ret, cat'))
    (hkv : ∀ p ∈ cat, p.1 = p.2.name) :
    (∀ p ∈ cat', p.1 = p.2.name)
    ∧ (cat = [] → (ret.map fun t => t.name).Nodup → ret.length = cat'.length) := by
  refine ⟨list_tools_run_keys tds cat ret cat' hrun hkv, fun hc hnd => ?_⟩
  subst hc
  have := list_tools_run_length tds [] ret cat' hrun hnd (by simp)
  simp only [List.length_nil, Nat.zero_add] at this
  omega

/-- Claim C3, counterexample to the claim as stated: after a successful
`list_tools` on an adapter whose catalog already holds an `"old"` tool
absent from the response, the returned list has one element but the
catalog holds two entries — the catalog is not "exactly the returned set
keyed by tool name". -/
theorem C3_list_tools_counterexample :
    list_tools_run
      [Json.obj (.cons "name" (Json.str "new") (.cons "description" (Json.str "nd")
        (.cons "inputSchema" (Json.obj .nil) .nil)))]
      [(Json.str "old", ⟨Json.str "old", Json.str "d", Json.obj .nil⟩)] =
      .ok ([⟨Json.str "new", Json.str "nd", Json.obj .nil⟩],
        [(Json.str "old", ⟨Json.str "old", Json.str "d", Json.obj .nil⟩),
          (Json.str "new", ⟨Json.str "new", Json.str "nd", Json.obj .nil⟩)])
    ∧ ([(⟨Json.str "new", Json.str "nd", Json.obj .nil⟩ : MCPTool)]).length ≠
      ([(Json.str "old", ⟨Json.str "old", Json.str "d", Json.obj .nil⟩),
        (Json.str "new", ⟨Json.str "new", Json.str "nd", Json.obj .nil⟩)] :
        List (Json × MCPTool)).length := by
  constructor
  · decide
  · decide

/-- Claim C6: code bug.  A non-streaming `chat()` under the
OpenAI-compatible dialect posts to `/v1/chat/completions`, but a
streaming one is handed to `_stream_chat`, which posts to the native
`/api/chat` path — contradicting both the claim and the spec's
statement of the OpenAI-compatible endpoint (a vLLM server does not
serve `/api/chat`). -/
theorem C6_vllm_chat_url :
    chat_post_url Backend.vllm "http://host" false = "http://host/v1/chat/completions"
    ∧ chat_post_url Backend.vllm "http://host" true = "http://host/api/chat"
    ∧ chat_post_url Backend.vllm "http://host" true ≠ "http://host/v1/chat/completions" := by
  refine ⟨rfl, rfl, ?_⟩
  decide

/-- Claim C10: `check_model_exists` never raises — a failing underlying
`list_models()` call (modelled by `Py.exn`) yields `False` for either
backend dialect, and so does a raise inside the name-extraction loop
(here: a non-dict element, on which `.get` raises). -/
theorem C10_check_model_exists_no_raise (backend : Backend) (modelName : String) :
    check_model_exists backend modelName Py.exn = false
    ∧ check_model_exists backend modelName (Py.ok [Json.num 3]) = false := by
  cases backend <;> exact ⟨rfl, rfl⟩

theorem parse_some_guards (content : Json) (tools : Option (List Json)) (c : Json)
    (h : parse_json_tool_call content tools = .ok (some c)) :
    truthy content = true ∧ toolsTruthy tools = true := by
  cases hc : truthy content with
  | false =>
    rw [parse_json_tool_call, hc] at h
    simp at h
  | true =>
    cases ht : toolsTruthy tools with
    | false =>
      rw [parse_json_tool_call, hc, ht] at h
      simp at h
    | true => exact ⟨rfl, rfl⟩

/-- Claim C5: under the OpenAI-compatible dialect, when the response
carries no structured tool calls (`tool_calls` is `None` or `[]`), tools
were offered and the recovery heuristic recovers a call `c` from the
content, the normalized response has empty content and exactly that one
tool call; under the native dialect `chat()` returns the decoded
response unmodified, so it never invokes the recovery heuristic
regardless of content shape. -/
theorem C5_vllm_recovery (content tc : Json) (tools : Option (List Json)) (c : Json)
    (htc : tc = Json.null ∨ tc = Json.arr .nil)
    (hrec : parse_json_tool_call content tools = .ok (some c)) :
    chat_vllm_normalize content tc tools =
      .ok (mkChatResp (Json.str "") (Json.arr (.cons c .nil)))
    ∧ ∀ resp, chat_ollama_normalize resp = resp := by
  obtain ⟨hc, ht⟩ := parse_some_guards content tools c hrec
  constructor
  · have htc' : truthy tc = false := by
      rcases htc with h | h <;> rw [h] <;> rfl
    rw [chat_vllm_normalize]
    simp only [ht, if_true, htc', Bool.not_false, hc, Py.bind, hrec]
  · intro resp
    rfl

/-- Claim C5, witness: a response whose content is the explicit-format
tool call `\x7b"tool": "mytool", "arguments": \x7b"a": 1\x7d\x7d`, no structured
tool calls, one offered tool. -/
theorem C5_vllm_recovery_witness :
    chat_vllm_normalize
      (Json.str "\x7b\"tool\": \"mytool\", \"arguments\": \x7b\"a\": 1\x7d\x7d")
      Json.null (some [Json.obj .nil]) =
      .ok (mkChatResp (Json.str "") (Json.arr (.cons
        (mkExplicitCall
          (Json.obj (.cons "tool" (Json.str "mytool")
            (.cons "arguments" (Json.obj (.cons "a" (Json.num 1) .nil)) .nil)))
          (Json.str "mytool") (Json.obj (.cons "a" (Json.num 1) .nil))) .nil))) :=
  (C5_vllm_recovery
    (Json.str "\x7b\"tool\": \"mytool\", \"arguments\": \x7b\"a\": 1\x7d\x7d")
    Json.null (some [Json.obj .nil]) _ (Or.inl rfl) (by decide)).1

/-- Claim C7, amended: the explicit-format path requires the tool-name
alias value and the arguments alias value to be *truthy*, not merely
present — under that proviso the heuristic adopts the name and the
argument payload directly, serializing non-string arguments with
`json.dumps`. -/
theorem C7_explicit_format_amended (s : String) (ts : List Json) (ms : JsonObj)
    (nmv argv : Json)
    (hs : truthy (Json.str s) = true)
    (hts : toolsTruthy (some ts) = true)
    (hb : (startsWithL (pyStrip s.data) ['\x7b'] && endsWithL (pyStrip s.data) ['\x7d']) = true)
    (hp : json_loads' (pyStrip s.data) = some (Json.obj ms))
    (hn : pyOr ((jsonGet ms "tool").getD Json.null)
      (pyOr ((jsonGet ms "name").getD Json.null)
        ((jsonGet ms "function").getD Json.null)) = nmv)
    (ha : pyOr ((jsonGet ms "arguments").getD Json.null)
      ((jsonGet ms "params").getD Json.null) = argv)
    (hnt : truthy nmv = true) (hat : truthy argv = true) :
    parse_json_tool_call (Json.str s) (some ts) =
      .ok (some (mkExplicitCall (Json.obj ms) nmv argv)) := by
  rw [parse_json_tool_call]
  simp only [hs, hts, Bool.not_true, Bool.or_self, Bool.false_eq_true, if_false,
    pyAsStr, Py.bind, heuristic_body, hb, hp, heuristic_on_parsed,
    hn, ha, hnt, hat, Bool.and_self, if_true]

/-- Claim C7, counterexample to the claim as stated: the input
`\x7b"tool": "search", "arguments": \x7b\x7d\x7d` carries both alias keys, yet the
empty-dict arguments value is falsy, so strategy 1 is skipped and the
inference fallback (no key overlap with the offered tool) returns
`None` instead of a call targeting `search`. -/
theorem C7_explicit_format_counterexample :
    parse_json_tool_call (Json.str "\x7b\"tool\": \"search\", \"arguments\": \x7b\x7d\x7d")
      (some [Json.obj (.cons "function" (Json.obj
        (.cons "name" (Json.str "fetch")
          (.cons "parameters" (Json.obj (.cons "properties" (Json.obj
            (.cons "url" (Json.obj .nil) .nil)) .nil)) .nil))) .nil)]) =
      .ok none := by decide

/-- Claim C7, witness: the amended theorem applied to the claim's own
example `\x7b"tool": "search", "arguments": \x7b"q": "x"\x7d\x7d`. -/
theorem C7_explicit_format_amended_witness :
    parse_json_tool_call (Json.str "\x7b\"tool\": \"search\", \"arguments\": \x7b\"q\": \"x\"\x7d\x7d")
      (some [Json.obj .nil]) =
      .ok (some (mkExplicitCall
        (Json.obj (.cons "tool" (Json.str "search")
          (.cons "arguments" (Json.obj (.cons "q" (Json.str "x") .nil)) .nil)))
        (Json.str "search") (Json.obj (.cons "q" (Json.str "x") .nil)))) :=
  C7_explicit_format_amended
    "\x7b\"tool\": \"search\", \"arguments\": \x7b\"q\": \"x\"\x7d\x7d"
    [Json.obj .nil]
    (.cons "tool" (Json.str "search")
      (.cons "arguments" (Json.obj (.cons "q" (Json.str "x") .nil)) .nil))
    (Json.str "search") (Json.obj (.cons "q" (Json.str "x") .nil))
    (by decide) (by decide) (by decide) (by decide) (by decide) (by decide)
    (by decide) (by decide)

theorem toolNameO_isSome (t : Json) (h : (toolPropsO t).isSome = true) :
    (toolNameO t).isSome = true := by
  cases t with
  | obj ms =>
    rw [toolPropsO] at h
    simp only [dictGetO] at h
    rw [toolNameO]
    simp only [dictGetO]
    cases hfn : (jsonGet ms "function").getD (Json.obj .nil) with
    | obj ms' => simp [dictGetO]
    | null => rw [hfn] at h; simp at h
    | bool b => rw [hfn] at h; simp at h
    | num n => rw [hfn] at h; simp at h
    | str s => rw [hfn] at h; simp at h
    | arr xs => rw [hfn] at h; simp at h
  | null => rw [toolPropsO] at h; simp [dictGetO] at h
  | bool b => rw [toolPropsO] at h; simp [dictGetO] at h
  | num n => rw [toolPropsO] at h; simp [dictGetO] at h
  | str s => rw [toolPropsO] at h; simp [dictGetO] at h
  | arr xs => rw [toolPropsO] at h; simp [dictGetO] at h

theorem bestMatchLoop_total : ∀ (ts : List Json) (keys : List String) (bm : Json) (bs : Nat),
    (∀ t ∈ ts, (toolPropsO t).isSome = true) →
    ∃ p, bestMatchLoop ts keys bm bs = .ok p
  | [], keys, bm, bs, _ => ⟨(bm, bs), rfl⟩
  | t :: ts, keys, bm, bs, h => by
    have hp := h t (List.mem_cons_self _ _)
    rcases Option.isSome_iff_exists.1 hp with ⟨props, hprops⟩
    have hrest : ∀ t' ∈ ts, (toolPropsO t').isSome = true :=
      fun t' ht' => h t' (List.mem_cons_of_mem _ ht')
    rw [bestMatchLoop, hprops]
    simp only [Py.ofOption, Py.bind]
    by_cases hlt : bs < interCount keys (objKeys props)
    · simp only [hlt, if_true]
      rcases Option.isSome_iff_exists.1 (toolNameO_isSome t hp) with ⟨nm, hnm⟩
      rw [hnm]
      simp only [Py.ofOption, Py.bind]
      exact bestMatchLoop_total ts keys nm _ hrest
    · simp only [hlt, if_false]
      exact bestMatchLoop_total ts keys bm bs hrest

theorem bestMatchLoop_spec : ∀ (ts : List Json) (keys : List String) (bm : Json) (bs : Nat),
    (∀ t ∈ ts, (toolPropsO t).isSome = true) →
    bestMatchLoop ts keys bm bs = .ok
      (if maxScore keys ts ≤ bs then (bm, bs)
        else (firstBestNameAux keys ts (maxScore keys ts), maxScore keys ts))
  | [], keys, bm, bs, _ => by
    simp [bestMatchLoop, maxScore]
  | t :: ts, keys, bm, bs, h => by
    have hp := h t (List.mem_cons_self _ _)
    rcases Option.isSome_iff_exists.1 hp with ⟨props, hprops⟩
    have hsc : scoreOfD keys t = interCount keys (objKeys props) := by
      rw [scoreOfD, hprops]
    have hrest : ∀ t' ∈ ts, (toolPropsO t').isSome = true :=
      fun t' ht' => h t' (List.mem_cons_of_mem _ ht')
    have hmax : maxScore keys (t :: ts) = max (scoreOfD keys t) (maxScore keys ts) := rfl
    rw [bestMatchLoop, hprops]
    simp only [Py.ofOption, Py.bind]
    by_cases hlt : bs < interCount keys (objKeys props)
    · simp only [hlt, if_true]
      rcases Option.isSome_iff_exists.1 (toolNameO_isSome t hp) with ⟨nm, hnm⟩
      rw [hnm]
      simp only [Py.ofOption, Py.bind]
      rw [bestMatchLoop_spec ts keys nm _ hrest]
      have hMbs : ¬ maxScore keys (t :: ts) ≤ bs := by
        intro hle
        rw [hmax] at hle
        exact absurd (le_trans (le_max_left _ _) hle) (by rw [hsc]; omega)
      rw [if_neg hMbs]
      by_cases hms : maxScore keys ts ≤ interCount keys (objKeys props)
      · have hM : maxScore keys (t :: ts) = scoreOfD keys t := by
          rw [hmax]
          exact max_eq_left (hsc ▸ hms)
        rw [if_pos hms, hM, firstBestNameAux, if_pos rfl, hnm, Option.getD_some, hsc]
      · have hscM : scoreOfD keys t < maxScore keys ts := by
          rw [hsc]; omega
        have hM : maxScore keys (t :: ts) = maxScore keys ts := by
          rw [hmax]
          exact max_eq_right (le_of_lt hscM)
        rw [if_neg hms, hM, firstBestNameAux, if_neg (Nat.ne_of_lt hscM)]
    · simp only [hlt, if_false]
      rw [bestMatchLoop_spec ts keys bm bs hrest]
      have hsc' : scoreOfD keys t ≤ bs := by
        rw [hsc]; omega
      by_cases hms : maxScore keys ts ≤ bs
      · have hM : maxScore keys (t :: ts) ≤ bs := by
          rw [hmax]
          exact max_le hsc' hms
        rw [if_pos hms, if_pos hM]
      · have hscM : scoreOfD keys t < maxScore keys ts :=
          lt_of_le_of_lt hsc' (Nat.lt_of_not_le hms)
        have hM : maxScore keys (t :: ts) = maxScore keys ts := by
          rw [hmax]
          exact max_eq_right (le_of_lt hscM)
        have hMbs : ¬ maxScore keys (t :: ts) ≤ bs := by
          rw [hM]; exact hms
        rw [if_neg hms, if_neg hMbs, hM, firstBestNameAux, if_neg (Nat.ne_of_lt hscM)]

theorem firstBestNameAux_truthy : ∀ (ts : List Json) (keys : List String),
    (∀ t ∈ ts, truthy ((toolNameO t).getD Json.null) = true) →
    ∀ m, maxScore keys ts = m → 0 < m → truthy (firstBestNameAux keys ts m) = true
  | [], keys, _, m, hm, hpos => by
    rw [maxScore] at hm
    simp only [List.foldr_nil] at hm
    omega
  | t :: ts, keys, h, m, hm, hpos => by
    rw [firstBestNameAux]
    by_cases he : scoreOfD keys t = m
    · simp only [he, if_true]
      exact h t (List.mem_cons_self _ _)
    · simp only [he, if_false]
      have hmx : max (scoreOfD keys t) (maxScore keys ts) = m := hm
      have hm' : maxScore keys ts = m := by
        rcases max_choice (scoreOfD keys t) (maxScore keys ts) with hc | hc
        · exact absurd (hc.symm.trans hmx) he
        · exact hc.symm.trans hmx
      exact firstBestNameAux_truthy ts keys
        (fun t' ht' => h t' (List.mem_cons_of_mem _ ht')) m hm' hpos

/-- Claim C4: when the parsed content object carries none of the
tool-name/arguments alias keys, the heuristic selects the offered tool
whose parameter-schema property names overlap the object's keys with the
strictly highest positive count — first-seen highest on ties — and
returns `None` when no offered tool shares any key.  Stated against the
claim-side selector `claimBest`, for offered tools whose property
extraction succeeds and whose `function.name` is truthy. -/
theorem C4_bag_inference (s : String) (ts : List Json) (ms : JsonObj)
    (hs : truthy (Json.str s) = true)
    (hts : toolsTruthy (some ts) = true)
    (hb : (startsWithL (pyStrip s.data) ['\x7b'] && endsWithL (pyStrip s.data) ['\x7d']) = true)
    (hp : json_loads' (pyStrip s.data) = some (Json.obj ms))
    (h1 : jsonGet ms "tool" = none) (h2 : jsonGet ms "name" = none)
    (h3 : jsonGet ms "function" = none) (h4 : jsonGet ms "arguments" = none)
    (h5 : jsonGet ms "params" = none)
    (hwf : ∀ t ∈ ts, (toolPropsO t).isSome = true
      ∧ truthy ((toolNameO t).getD Json.null) = true) :
    parse_json_tool_call (Json.str s) (some ts) =
      .ok ((claimBest (dedup (objKeys ms)) ts).map (mkInferredCall (Json.obj ms))) := by
  have htn : truthy Json.null = false := rfl
  rw [parse_json_tool_call]
  simp only [hs, hts, Bool.not_true, Bool.or_self, Bool.false_eq_true, if_false,
    pyAsStr, Py.bind, heuristic_body, hb, hp, heuristic_on_parsed,
    h1, h2, h3, h4, h5, Option.getD_none, Option.getD_some, pyOr, htn,
    Bool.false_and, Bool.and_self]
  rw [bestMatchLoop_spec ts (dedup (objKeys ms)) Json.null 0
    (fun t ht => (hwf t ht).1)]
  by_cases hM : maxScore (dedup (objKeys ms)) ts = 0
  · rw [if_pos (Nat.le_of_eq hM)]
    simp [Py.bind, claimBest, hM, truthy]
  · have hpos : 0 < maxScore (dedup (objKeys ms)) ts := Nat.pos_of_ne_zero hM
    rw [if_neg (by omega)]
    have htr : truthy (firstBestNameAux (dedup (objKeys ms)) ts
        (maxScore (dedup (objKeys ms)) ts)) = true :=
      firstBestNameAux_truthy ts (dedup (objKeys ms))
        (fun t ht => (hwf t ht).2) _ rfl hpos
    simp only [Py.bind]
    rw [if_pos (by simp [htr, hpos])]
    simp [claimBest, hM]

/-- Claim C4, witness: the claim's own example — the bag
`\x7b"q": "x", "limit": 5\x7d` against tools `search\x7bq, limit\x7d` and
`fetch\x7burl\x7d` matches `search` (overlap 2 beats 0). -/
theorem C4_bag_inference_witness :
    parse_json_tool_call (Json.str "\x7b\"q\": \"x\", \"limit\": 5\x7d")
      (some [Json.obj (.cons "function" (Json.obj (.cons "name" (Json.str "search")
          (.cons "parameters" (Json.obj (.cons "properties" (Json.obj
            (.cons "q" (Json.obj .nil) (.cons "limit" (Json.obj .nil) .nil))) .nil))
            .nil))) .nil),
        Json.obj (.cons "function" (Json.obj (.cons "name" (Json.str "fetch")
          (.cons "parameters" (Json.obj (.cons "properties" (Json.obj
            (.cons "url" (Json.obj .nil) .nil)) .nil)) .nil))) .nil)]) =
      .ok (some (mkInferredCall
        (Json.obj (.cons "q" (Json.str "x") (.cons "limit" (Json.num 5) .nil)))
        (Json.str "search"))) := by
  have h := C4_bag_inference "\x7b\"q\": \"x\", \"limit\": 5\x7d"
    [Json.obj (.cons "function" (Json.obj (.cons "name" (Json.str "search")
        (.cons "parameters" (Json.obj (.cons "properties" (Json.obj
          (.cons "q" (Json.obj .nil) (.cons "limit" (Json.obj .nil) .nil))) .nil))
          .nil))) .nil),
      Json.obj (.cons "function" (Json.obj (.cons "name" (Json.str "fetch")
        (.cons "parameters" (Json.obj (.cons "properties" (Json.obj
          (.cons "url" (Json.obj .nil) .nil)) .nil)) .nil))) .nil)]
    (.cons "q" (Json.str "x") (.cons "limit" (Json.num 5) .nil))
    (by decide) (by decide) (by decide) (by decide) (by decide) (by decide)
    (by decide) (by decide) (by decide) (by decide)
  rw [h]
  decide

/-- Claim C8: on any content string and any list of tool-definition
dicts whose `function.parameters.properties` chain is well-formed, the
recovery heuristic is total — it returns a value (a call or `None`) and
never raises; in particular JSON parse failures are absorbed. -/
theorem C8_heuristic_total (s : String) (ts : List Json)
    (hwf : ∀ t ∈ ts, (toolPropsO t).isSome = true) :
    ∃ r, parse_json_tool_call (Json.str s) (some ts) = .ok r := by
  rw [parse_json_tool_call]
  cases hg : (!truthy (Json.str s) || !toolsTruthy (some ts)) with
  | true => exact ⟨none, by simp⟩
  | false =>
    simp only [Bool.false_eq_true, if_false, pyAsStr, Py.bind, heuristic_body]
    cases hf : (startsWithL (pyStrip s.data) ['\x7b'] && endsWithL (pyStrip s.data) ['\x7d']) with
    | false => exact ⟨none, by simp⟩
    | true =>
      simp only [Bool.not_true, Bool.false_eq_true, if_false]
      cases hpl : json_loads' (pyStrip s.data) with
      | none => exact ⟨none, rfl⟩
      | some parsed =>
        cases parsed with
        | obj ms =>
          simp only [heuristic_on_parsed, Option.getD_some]
          by_cases hst : (truthy (pyOr ((jsonGet ms "tool").getD Json.null)
              (pyOr ((jsonGet ms "name").getD Json.null)
                ((jsonGet ms "function").getD Json.null)))
            && truthy (pyOr ((jsonGet ms "arguments").getD Json.null)
              ((jsonGet ms "params").getD Json.null))) = true
          · rw [if_pos hst]
            exact ⟨_, rfl⟩
          · rw [if_neg hst]
            rcases bestMatchLoop_total ts (dedup (objKeys ms)) Json.null 0 hwf with ⟨p, hp⟩
            rw [hp]
            simp only [Py.bind]
            by_cases hfin : (truthy p.1 && decide (0 < p.2)) = true
            · rw [if_pos hfin]
              exact ⟨_, rfl⟩
            · rw [if_neg hfin]
              exact ⟨none, rfl⟩
        | null => exact ⟨none, rfl⟩
        | bool b => exact ⟨none, rfl⟩
        | num n => exact ⟨none, rfl⟩
        | str s' => exact ⟨none, rfl⟩
        | arr xs => exact ⟨none, rfl⟩

/-- Claim C8, witness: non-JSON content against one well-formed tool —
the heuristic returns a value rather than raising. -/
theorem C8_heuristic_total_witness :
    ∃ r, parse_json_tool_call (Json.str "plain prose, not JSON")
      (some [Json.obj (.cons "function" (Json.obj (.cons "name" (Json.str "search")
        (.cons "parameters" (Json.obj (.cons "properties" (Json.obj
          (.cons "q" (Json.obj .nil) .nil)) .nil)) .nil))) .nil)]) = .ok r :=
  C8_heuristic_total "plain prose, not JSON"
    [Json.obj (.cons "function" (Json.obj (.cons "name" (Json.str "search")
      (.cons "parameters" (Json.obj (.cons "properties" (Json.obj
        (.cons "q" (Json.obj .nil) .nil)) .nil)) .nil))) .nil)]
    (by decide)

/-- Claim C3, witness: the amended theorem applied to an initially empty
catalog and a one-tool response. -/
theorem C3_list_tools_amended_witness :
    ([(⟨Json.str "new", Json.str "nd", Json.obj .nil⟩ : MCPTool)]).length =
      ([(Json.str "new", ⟨Json.str "new", Json.str "nd", Json.obj .nil⟩)] :
        List (Json × MCPTool)).length :=
  (C3_list_tools_amended
    [Json.obj (.cons "name" (Json.str "new") (.cons "description" (Json.str "nd")
      (.cons "inputSchema" (Json.obj .nil) .nil)))]
    [] [⟨Json.str "new", Json.str "nd", Json.obj .nil⟩]
    [(Json.str "new", ⟨Json.str "new", Json.str "nd", Json.obj .nil⟩)]
    (by decide) (by decide)).2 rfl (by decide)

end Mcp
